import Mathlib

/-
Verification of the trajectory-dump parser/writer of the
Molecular-Dynamics-Simulation-of-Voronoi-Tessellation repository.

The Python sources embedded here:
  scripts/convert_to_trajectory.py   (read_dump_voro, write_trajectory, verify_output)
  scripts/analyze_dislocations.py    (read_lammps_dump)
  scripts/extract_stress_strain_data.py (extract_stress_strain_data and its main block)

Modelling conventions:
  A file is a list of lines; a line is a list of characters (a Python str).
  Python floats are modelled as exact rationals; the float() literal parser
  is modelled on finite decimal/exponent literals (the only forms the data
  format produces; "inf"/"nan"/underscore forms are not modelled).
  Python exceptions are modelled by the PyErr type: an uncaught exception
  makes the whole function return Except.error.  The source's mixture of a
  for-loop over the file with interior next(f) calls is embedded as a
  single-line step function carrying an explicit mode (the pending next(f)
  consumptions), exactly the finite-state-machine reading of the scan.
-/

set_option maxRecDepth 8000

namespace Voro

abbrev Line := List Char

def isWs (c : Char) : Bool := c.isWhitespace

/-- Python str.lstrip (on whitespace). -/
def trimStart (l : Line) : Line := l.dropWhile isWs

/-- Python str.rstrip (on whitespace). -/
def trimEnd (l : Line) : Line := (l.reverse.dropWhile isWs).reverse

/-- Python str.strip (on whitespace). -/
def trim (l : Line) : Line := trimEnd (trimStart l)

/-- Python str.startswith. -/
def hasPfx : List Char → List Char → Bool
  | [], _ => true
  | _ :: _, [] => false
  | p :: ps, c :: cs => p = c && hasPfx ps cs

/-- Helper of splitWs: acc holds the reversed chars of the token being read. -/
def splitWsAux : List Char → List Char → List (List Char)
  | [], acc => if acc = [] then [] else [acc.reverse]
  | c :: cs, acc =>
    if isWs c then (if acc = [] then splitWsAux cs [] else acc.reverse :: splitWsAux cs [])
    else splitWsAux cs (c :: acc)

/-- Python str.split() with no argument: split on whitespace runs, no empty pieces. -/
def splitWs (l : Line) : List Line := splitWsAux l []

/-- Python `pat in s` for a fixed non-empty pattern: contiguous substring test. -/
def containsSub (pat : List Char) : Line → Bool
  | [] => hasPfx pat []
  | c :: cs => hasPfx pat (c :: cs) || containsSub pat cs

def digitsVal (ds : List Char) : Nat := ds.foldl (fun a c => 10 * a + (c.toNat - 48)) 0

/-- Python int(s): optional surrounding whitespace, optional sign, decimal digits. -/
def pyInt (l : Line) : Option Int :=
  let t := trim l
  match t with
  | [] => none
  | c :: r =>
    if c = ('+') then (if r ≠ [] ∧ r.all Char.isDigit then some (digitsVal r) else none)
    else if c = ('-') then (if r ≠ [] ∧ r.all Char.isDigit then some (-(digitsVal r : Int)) else none)
    else (if t.all Char.isDigit then some (digitsVal t) else none)

/-- The exact rational m * 10^e (m the signed mantissa digits, e the net
decimal exponent).  Built with Rat.divInt so that concrete values reduce. -/
def decValue (m : Int) (e : Int) : ℚ :=
  if 0 ≤ e then Rat.divInt (m * ((10 : Int) ^ e.toNat)) 1
  else Rat.divInt m ((10 : Int) ^ (-e).toNat)

/-- Python float(tok) on a whitespace-free token, restricted to finite decimal
literals with optional sign, decimal point and exponent (the forms occurring in
dump files); the value is exact as a rational. -/
def pyFloat (t : Line) : Option ℚ :=
  let sr : Int × Line :=
    match t with
    | c :: r => if c = ('+') then (1, r) else if c = ('-') then (-1, r) else (1, t)
    | [] => (1, t)
  let sg := sr.1
  let r0 := sr.2
  let ip := r0.takeWhile Char.isDigit
  let r1 := r0.dropWhile Char.isDigit
  let hasDot : Bool := match r1 with | c :: _ => c = ('.') | [] => false
  let r1' := if hasDot then r1.drop 1 else r1
  let fp := r1'.takeWhile Char.isDigit
  let r2 := r1'.dropWhile Char.isDigit
  if ip = [] ∧ fp = [] then none
  else
    let m : Int := sg * ((digitsVal ip : Int) * ((10 : Int) ^ fp.length) + (digitsVal fp : Int))
    match r2 with
    | [] => some (decValue m (-(fp.length : Int)))
    | e :: r3 =>
      if e = ('e') ∨ e = ('E') then
        let er : Int × Line :=
          match r3 with
          | c :: r => if c = ('+') then (1, r) else if c = ('-') then (-1, r) else (1, r3)
          | [] => (1, r3)
        let ed := er.2.takeWhile Char.isDigit
        let r5 := er.2.dropWhile Char.isDigit
        if ed = [] ∨ r5 ≠ [] then none
        else some (decValue m (er.1 * (digitsVal ed : Int) - (fp.length : Int)))
      else none

/-- Python `list(map(float, line.split()))`: None models the uncaught-or-caught
ValueError raised by float() on the first bad token. -/
def pyFloats (l : Line) : Option (List ℚ) := (splitWs l).mapM pyFloat

/-- Python int(x) on a float value: truncation toward zero (num/den in lowest
terms with positive den, so truncating division of num by den). -/
def pyTrunc (q : ℚ) : Int := q.num.tdiv (q.den : Int)

/-- Python exceptions that escape or are caught in the embedded functions. -/
inductive PyErr where
  | stopIteration
  | valueError
  | indexError
  | nameError
deriving DecidableEq, Repr

end Voro

deriving instance DecidableEq for Except

namespace Voro

/- ----------------------------------------------------------------------
scripts/convert_to_trajectory.py, read_dump_voro
---------------------------------------------------------------------- -/

/-- Marker prefix "ITEM:". -/
def itemChars : Line := ("ITEM:").data

/-- Marker prefix (and writer line) "ITEM: TIMESTEP". -/
def tsChars : Line := ("ITEM: TIMESTEP").data

/-- Marker prefix "ITEM: BOX BOUNDS". -/
def boxChars : Line := ("ITEM: BOX BOUNDS").data

/-- Marker prefix "ITEM: ATOMS". -/
def atomsChars : Line := ("ITEM: ATOMS").data

def idChars : Line := ("id").data
def xChars : Line := ("x").data
def yChars : Line := ("y").data
def zChars : Line := ("z").data

/-- One tuple appended to `data` by read_dump_voro:
(current_timestep, current_data, box_bounds, atom_ids). -/
structure Snap where
  timestep : Int
  positions : List (ℚ × ℚ × ℚ)
  box_bounds : Option (List (List ℚ))
  atom_ids : List Int
deriving DecidableEq, Repr

/-- Pending next(f) consumptions of the loop in read_dump_voro: after a
TIMESTEP marker one line is read as the timestep, after a BOX BOUNDS marker
three lines are read as bounds, after an ATOMS marker one line is read as the
column-name header.  `scanning` is the ordinary for-loop state. -/
inductive RdMode where
  | scanning
  | expectTs
  | expectBounds (acc : List (List ℚ)) (k : Nat)
  | expectHeader
deriving DecidableEq, Repr

/-- The loop state of read_dump_voro (its local variables, plus the mode). -/
structure RdState where
  acc : List Snap
  cur_ts : Option Int
  cur_data : List (ℚ × ℚ × ℚ)
  bb : Option (List (List ℚ))
  ids : List Int
  colIdx : Option (Nat × Nat × Nat × Nat)
  mode : RdMode
deriving DecidableEq, Repr

def rdInit : RdState :=
  { acc := [], cur_ts := none, cur_data := [], bb := none, ids := [],
    colIdx := none, mode := .scanning }

/-- The finalize rule of read_dump_voro: append the accumulating tuple if a
timestep was seen and current_data is non-empty (run both at a TIMESTEP
marker and at end of file). -/
def emitIfPending (st : RdState) : List Snap :=
  match st.cur_ts with
  | some ts =>
    if st.cur_data ≠ [] then st.acc ++ [⟨ts, st.cur_data, st.bb, st.ids⟩] else st.acc
  | none => st.acc

/-- headers.index(key) if key in headers else dflt. -/
def idxFind (key : Line) : List Line → Option Nat
  | [] => none
  | x :: xs => if x = key then some 0 else (idxFind key xs).map (· + 1)

def idxOr (hs : List Line) (key : Line) (dflt : Nat) : Nat := (idxFind key hs).getD dflt

/-- Processing of one physical line by read_dump_voro.  An error is an
uncaught Python exception (ValueError outside the data-line try, IndexError
on a resolved index past the token count, NameError when a data line with at
least 4 numeric tokens arrives before any ATOMS header resolved indices). -/
def rdLine (st : RdState) (l : Line) : Except PyErr RdState :=
  match st.mode with
  | .expectTs =>
    match pyInt l with
    | none => .error .valueError
    | some n => .ok { st with cur_ts := some n, mode := .scanning }
  | .expectBounds acc k =>
    match pyFloats l with
    | none => .error .valueError
    | some v =>
      if k ≤ 1 then .ok { st with bb := some (acc ++ [v]), mode := .scanning }
      else .ok { st with mode := .expectBounds (acc ++ [v]) (k - 1) }
  | .expectHeader =>
    let hs := splitWs (trim l)
    .ok { st with
          colIdx := some (idxOr hs idChars 0, idxOr hs xChars 1, idxOr hs yChars 2, idxOr hs zChars 3),
          mode := .scanning }
  | .scanning =>
    let t := trim l
    if hasPfx tsChars t then
      .ok { st with acc := emitIfPending st, cur_data := [], ids := [], mode := .expectTs }
    else if hasPfx boxChars t then
      .ok { st with mode := .expectBounds [] 3 }
    else if hasPfx itemChars t then
      if hasPfx atomsChars t then .ok { st with mode := .expectHeader }
      else .ok st
    else
      match st.cur_ts with
      | none => .ok st
      | some _ =>
        match pyFloats t with
        | none => .ok st
        | some vs =>
          if 4 ≤ vs.length then
            match st.colIdx with
            | none => .error .nameError
            | some (i0, i1, i2, i3) =>
              match vs.get? i0, vs.get? i1, vs.get? i2, vs.get? i3 with
              | some a, some x, some y, some z =>
                .ok { st with ids := st.ids ++ [pyTrunc a],
                              cur_data := st.cur_data ++ [(x, y, z)] }
              | _, _, _, _ => .error .indexError
          else .ok st

/-- The for-loop of read_dump_voro over the remaining lines. -/
def rdRun (st : RdState) : List Line → Except PyErr RdState
  | [] => .ok st
  | l :: rest =>
    match rdLine st l with
    | .error e => .error e
    | .ok st' => rdRun st' rest

/-- read_dump_voro on a file given as its list of lines.  At end of file a
pending next(f) raises StopIteration; otherwise the last accumulating tuple
is finalized. -/
def read_dump_voro (lines : List Line) : Except PyErr (List Snap) :=
  match rdRun rdInit lines with
  | .error e => .error e
  | .ok st =>
    match st.mode with
    | .scanning => .ok (emitIfPending st)
    | _ => .error .stopIteration

end Voro

-- sanity checks on the text primitives
example : Voro.trim (" ITEM: ATOMS ").data = ("ITEM: ATOMS").data := by decide
example : Voro.splitWs ("  1 1  10.5").data = [("1").data, ("1").data, ("10.5").data] := by decide
example : Voro.pyInt (" 1000 ").data = some 1000 := by decide
example : Voro.pyInt ("1.0").data = none := by decide
example : Voro.pyFloat ("10.5").data = some (Rat.divInt 21 2) := by decide
example : Voro.pyFloat ("-0.5e1").data = some (-5) := by decide
example : Voro.pyFloat ("ITEM:").data = none := by decide
example : Voro.pyFloats ("0.0 100.0").data = some [0, 100] := by decide
example : Voro.containsSub ("ITEM: ATOMS").data ("xITEM: ATOMS id").data = true := by decide
example : Voro.pyTrunc (Rat.divInt (-7) 2) = -3 := by decide

namespace Voro
def mkLines (ls : List String) : List Line := ls.map String.data

def spec6Input : List Line := mkLines
  [ "ITEM: TIMESTEP", "1000", "ITEM: NUMBER OF ATOMS", "4",
    "ITEM: BOX BOUNDS pp pp pp", "0.0 100.0", "0.0 100.0", "0.0 100.0",
    "ITEM: ATOMS id type x y z", "1 1 10.5 20.3 5.0", "2 1 11.0 21.0 5.2" ]
end Voro

namespace Voro
def spec8Input : List Line := mkLines
  [ "ITEM: TIMESTEP", "0", "ITEM: NUMBER OF ATOMS", "2",
    "ITEM: BOX BOUNDS pp pp pp", "0.0 10.0", "0.0 10.0", "0.0 10.0",
    "ITEM: ATOMS id type x y z", "1 1 1.0 1.0 1.0", "2 1 2.0 2.0 2.0",
    "ITEM: TIMESTEP", "100", "ITEM: NUMBER OF ATOMS", "2",
    "ITEM: BOX BOUNDS pp pp pp", "0.0 10.5", "0.0 10.5", "0.0 10.5",
    "ITEM: ATOMS id type x y z", "1 1 1.1 1.0 1.0", "2 1 2.3 2.0 2.0" ]

def c3Input : List Line := mkLines
  [ "ITEM: TIMESTEP", "0", "ITEM: ATOMS", "id type x y z",
    "1 1 1.0 1.0 1.0", "2 1 2.0 2.0", "3 1 3.0 3.0 3.0" ]

def c7Pre : List Line := mkLines
  [ "ITEM: TIMESTEP", "100", "ITEM: ATOMS", "h", "1 1 1.0 2.0 3.0",
    "ITEM: TIMESTEP", "0", "ITEM: ATOMS", "h", "2 2 4.0 5.0 6.0" ]

def c7Post : List Line := mkLines
  [ "ITEM: TIMESTEP", "100", "ITEM: ATOMS", "h", "3 3 7.0 8.0 9.0" ]
end Voro

/-- C1: evaluation of read_dump_voro on the spec's section-6 excerpt.  The
claim says the column indices for id/x/y/z are resolved from the column-name
list on the "ITEM: ATOMS id type x y z" marker line itself and that no
particle data line is consumed as a header line; the code instead consumes
the line after the marker (the first particle line "1 1 10.5 20.3 5.0") as
the header, finds none of the names there, falls back to indices 0,1,2,3,
and therefore returns a single particle whose x coordinate is the type
column: the snapshot is (1000, [(1, 11, 21)], bounds, [2]) instead of two
particles at (10.5, 20.3, 5.0) and (11.0, 21.0, 5.2). -/
theorem c1_header_line_consumed :
    Voro.read_dump_voro Voro.spec6Input =
      Except.ok [⟨1000, [(1, 11, 21)],
                  some [[0, 100], [0, 100], [0, 100]], [2]⟩] := by
  decide

/-- C2: evaluation of read_dump_voro on the spec's section-8 two-snapshot
scenario.  The claim requires two snapshots with timesteps [0, 100], each
holding both particle records with positions from the x,y,z columns, and an
average displacement of 0.2.  The code does return two snapshots with
timesteps [0, 100], but each holds exactly one particle (the first data line
of each ATOMS section is consumed as a header line) whose coordinates are
read from columns 1,2,3 = (type, x, y); the only displacement is
(0, 0.3, 0), of magnitude 0.3, not 0.2. -/
theorem c2_spec8_scenario :
    Voro.read_dump_voro Voro.spec8Input =
      Except.ok
        [⟨0, [(1, 2, 2)], some [[0, 10], [0, 10], [0, 10]], [2]⟩,
         ⟨100, [(1, Rat.divInt 23 10, 2)],
          some [[0, Rat.divInt 21 2], [0, Rat.divInt 21 2], [0, Rat.divInt 21 2]], [2]⟩]
    ∧ (Voro.read_dump_voro Voro.spec8Input).map (fun l => l.map Voro.Snap.timestep) =
        Except.ok [0, 100]
    ∧ (Voro.read_dump_voro Voro.spec8Input).map (fun l => l.map (fun s => s.positions.length)) =
        Except.ok [1, 1] := by
  refine ⟨by decide, by decide, by decide⟩

/-- C3 counterexample: a data line inside an ATOMS section with fewer tokens
than the resolved column indices require is not skipped; it aborts the parse
with an uncaught IndexError.  Here the header line resolves z to index 4 and
the line "2 1 2.0 2.0" has 4 numeric tokens, so values[4] raises, the
following valid line "3 1 3.0 3.0 3.0" is lost, and read_dump_voro raises
instead of returning records. -/
theorem c3_short_line_raises :
    Voro.read_dump_voro Voro.c3Input = Except.error Voro.PyErr.indexError := by
  decide

namespace Voro

/-- emitIfPending only appends at the end of the already-emitted list. -/
theorem emitIfPending_append (st : RdState) : ∃ t, emitIfPending st = st.acc ++ t := by
  unfold emitIfPending
  split
  · split
    · exact ⟨_, rfl⟩
    · exact ⟨[], (List.append_nil _).symm⟩
  · exact ⟨[], (List.append_nil _).symm⟩

/-- One loop step never removes or reorders already-emitted snapshots. -/
theorem rdLine_acc (st : RdState) (l : Line) (st' : RdState)
    (h : rdLine st l = .ok st') : ∃ t, st'.acc = st.acc ++ t := by
  simp only [rdLine] at h
  repeat' split at h
  all_goals cases h
  all_goals first
    | exact emitIfPending_append st
    | exact ⟨[], (List.append_nil _).symm⟩

/-- The loop never removes or reorders already-emitted snapshots. -/
theorem rdRun_acc (st : RdState) (lines : List Line) (st' : RdState)
    (h : rdRun st lines = .ok st') : ∃ t, st'.acc = st.acc ++ t := by
  induction lines generalizing st with
  | nil => exact ⟨[], by simp [rdRun] at h; simp [← h]⟩
  | cons l rest ih =>
    simp only [rdRun] at h
    cases hl : rdLine st l with
    | error e => rw [hl] at h; cases h
    | ok st1 =>
      rw [hl] at h
      obtain ⟨t1, ht1⟩ := rdLine_acc st l st1 hl
      obtain ⟨t2, ht2⟩ := ih st1 h
      exact ⟨t1 ++ t2, by rw [ht2, ht1, List.append_assoc]⟩

/-- Processing a concatenation processes the parts in order. -/
theorem rdRun_append (st : RdState) (a b : List Line) :
    rdRun st (a ++ b) =
      match rdRun st a with
      | .error e => .error e
      | .ok st' => rdRun st' b := by
  induction a generalizing st with
  | nil => simp [rdRun]
  | cons l rest ih =>
    simp only [List.cons_append, rdRun]
    cases hl : rdLine st l with
    | error e => simp
    | ok st1 => exact ih st1

end Voro

namespace Voro

/-- startswith as an explicit decomposition. -/
theorem hasPfx_exists (p l : List Char) : hasPfx p l = true ↔ ∃ s, l = p ++ s := by
  induction p generalizing l with
  | nil => simp [hasPfx]
  | cons a p ih =>
    cases l with
    | nil => simp [hasPfx]
    | cons c cs =>
      simp only [hasPfx, Bool.and_eq_true, decide_eq_true_eq, List.cons_append, ih,
        List.cons.injEq]
      constructor
      · rintro ⟨rfl, s, rfl⟩; exact ⟨s, rfl, rfl⟩
      · rintro ⟨s, rfl, rfl⟩; exact ⟨rfl, s, rfl⟩

/-- A string starts with itself followed by anything. -/
theorem hasPfx_self (p s : List Char) : hasPfx p (p ++ s) = true :=
  (hasPfx_exists p (p ++ s)).mpr ⟨s, rfl⟩

/-- startswith a longer prefix implies startswith a shorter one. -/
theorem hasPfx_of_append (p q l : List Char) (h : hasPfx (p ++ q) l = true) :
    hasPfx p l = true := by
  obtain ⟨s, rfl⟩ := (hasPfx_exists _ _).mp h
  rw [List.append_assoc]
  exact hasPfx_self p _

/-- rstrip only removes characters from the end. -/
theorem trimEnd_append (y : Line) : ∃ r, y = trimEnd y ++ r := by
  refine ⟨(y.reverse.takeWhile isWs).reverse, ?_⟩
  have h := List.takeWhile_append_dropWhile (p := isWs) (l := y.reverse)
  calc y = y.reverse.reverse := (List.reverse_reverse y).symm
    _ = (y.reverse.takeWhile isWs ++ y.reverse.dropWhile isWs).reverse := by rw [h]
    _ = trimEnd y ++ (y.reverse.takeWhile isWs).reverse := by
        rw [List.reverse_append]; rfl

/-- split() ignores leading whitespace. -/
theorem splitWs_trimStart (l : Line) : splitWs l = splitWs (trimStart l) := by
  induction l with
  | nil => rfl
  | cons c cs ih =>
    by_cases hc : isWs c = true
    · simp only [splitWs, splitWsAux, hc, if_true, trimStart, List.dropWhile_cons, hc] at *
      exact ih
    · simp only [trimStart, List.dropWhile_cons, hc]
      rfl

/-- A non-empty token accumulator is flushed as the head token. -/
theorem splitWsAux_acc (cs : List Char) :
    ∀ (a : Char) (as : List Char),
      ∃ tk rest, splitWsAux cs (a :: as) = ((a :: as).reverse ++ tk) :: rest := by
  induction cs with
  | nil => intro a as; exact ⟨[], [], by simp [splitWsAux]⟩
  | cons c cs ih =>
    intro a as
    by_cases hc : isWs c = true
    · exact ⟨[], splitWsAux cs [], by simp [splitWsAux, hc]⟩
    · obtain ⟨tk, rest, htk⟩ := ih c (a :: as)
      refine ⟨c :: tk, rest, ?_⟩
      simp only [splitWsAux, hc, if_false, Bool.false_eq_true, htk]
      simp

/-- The first token of a line whose stripped form starts with "ITEM:" itself
starts with the letter I, so float() fails on it. -/
theorem marker_pyFloats_none (m : Line) (h : hasPfx itemChars (trim m) = true) :
    pyFloats m = none := by
  obtain ⟨s, hs⟩ := (hasPfx_exists _ _).mp h
  obtain ⟨r, hr⟩ := trimEnd_append (trimStart m)
  have hts : trimStart m = ('I') :: (("TEM:").data ++ s ++ r) := by
    have h2 : trim m ++ r = trimStart m := by
      show trimEnd (trimStart m) ++ r = trimStart m
      exact hr.symm
    rw [← h2, hs]
    simp [itemChars]
  obtain ⟨tk, rest, htk⟩ := splitWsAux_acc (("TEM:").data ++ s ++ r) ('I') []
  have hsp : splitWs m = (('I') :: tk) :: rest := by
    rw [splitWs_trimStart, hts]
    simpa [splitWs, splitWsAux] using htk
  have hf : pyFloat (('I') :: tk) = none := by
    simp [pyFloat, List.takeWhile_cons, List.dropWhile_cons]
  unfold pyFloats
  rw [hsp, List.mapM_cons, hf]
  rfl

/-- C7: the parser only ever appends to the result list, so every snapshot
finalized while scanning a prefix of the file appears, in the same position,
before everything finalized later: file order of snapshots (hence of their
timesteps) is preserved, with no sorting and no deduplication. -/
theorem c7_order_preserved (pre post : List Line) (σ : RdState) (res : List Snap)
    (h1 : rdRun rdInit pre = .ok σ)
    (h2 : read_dump_voro (pre ++ post) = .ok res) :
    ∃ t, res = σ.acc ++ t := by
  unfold read_dump_voro at h2
  rw [rdRun_append, h1] at h2
  simp only [] at h2
  cases hr : rdRun σ post with
  | error e => rw [hr] at h2; cases h2
  | ok τ =>
    rw [hr] at h2
    simp only [] at h2
    obtain ⟨t1, ht1⟩ := rdRun_acc σ post τ hr
    cases hm : τ.mode with
    | scanning =>
      rw [hm] at h2
      simp only [] at h2
      obtain ⟨t2, ht2⟩ := emitIfPending_append τ
      cases h2
      exact ⟨t1 ++ t2, by rw [ht2, ht1, List.append_assoc]⟩
    | expectTs => rw [hm] at h2; cases h2
    | expectBounds acc k => rw [hm] at h2; cases h2
    | expectHeader => rw [hm] at h2; cases h2

/-- Witness for C7 at a concrete out-of-order, duplicated-timestep file:
the prefix emits the timestep-100 snapshot first, and the full parse keeps
it in front (the full result is [100, 0, 100] in file order: unsorted and
not deduplicated). -/
theorem c7_order_preserved_witness :
    ∃ t, [ (⟨100, [(1, 1, 2)], none, [1]⟩ : Snap),
           ⟨0, [(2, 4, 5)], none, [2]⟩,
           ⟨100, [(3, 7, 8)], none, [3]⟩ ] =
      ({ acc := [⟨100, [(1, 1, 2)], none, [1]⟩], cur_ts := some 0,
         cur_data := [(2, 4, 5)], bb := none, ids := [2],
         colIdx := some (0, 1, 2, 3), mode := RdMode.scanning } : RdState).acc ++ t :=
  c7_order_preserved c7Pre c7Post _ _ (by decide) (by decide)

end Voro

namespace Voro

/-- A non-marker line that float-parses to fewer than 4 values (or not at
all) is processed by the caught-ValueError / length-guard path and leaves
the whole loop state unchanged. -/
theorem rdLine_skip (st : RdState) (bad : Line) (hm : st.mode = RdMode.scanning)
    (hnm : hasPfx itemChars (trim bad) = false)
    (hbad : pyFloats (trim bad) = none ∨
      ∃ vs, pyFloats (trim bad) = some vs ∧ vs.length < 4) :
    rdLine st bad = .ok st := by
  have hts : hasPfx tsChars (trim bad) = false := by
    cases hh : hasPfx tsChars (trim bad)
    · rfl
    · have h1 : itemChars ++ (" TIMESTEP").data = tsChars := by decide
      have h2 := hasPfx_of_append itemChars ((" TIMESTEP").data) (trim bad) (by rw [h1]; exact hh)
      rw [h2] at hnm; cases hnm
  have hbx : hasPfx boxChars (trim bad) = false := by
    cases hh : hasPfx boxChars (trim bad)
    · rfl
    · have h1 : itemChars ++ (" BOX BOUNDS").data = boxChars := by decide
      have h2 := hasPfx_of_append itemChars ((" BOX BOUNDS").data) (trim bad) (by rw [h1]; exact hh)
      rw [h2] at hnm; cases hnm
  simp only [rdLine, hm, hts, hbx, hnm, Bool.false_eq_true, if_false]
  cases hct : st.cur_ts with
  | none => rfl
  | some ts =>
    rcases hbad with hb | ⟨vs, hvs, hlen⟩
    · rw [hb]
    · rw [hvs]
      simp only [if_neg (by omega : ¬ 4 ≤ vs.length)]

/-- C3 (amended): inserting a non-marker line that has fewer than four
tokens, or a non-numeric token, anywhere at scanning position leaves the
parse result exactly as without it — it is skipped without an exception and
without touching adjacent records.  (As the counterexample shows, the claim
fails for lines with at least 4 numeric tokens but fewer than a resolved
column index requires: those raise an uncaught IndexError.) -/
theorem c3_tolerant_skip (pre post : List Line) (σ : RdState) (bad : Line)
    (hσ : rdRun rdInit pre = .ok σ) (hm : σ.mode = RdMode.scanning)
    (hnm : hasPfx itemChars (trim bad) = false)
    (hbad : pyFloats (trim bad) = none ∨
      ∃ vs, pyFloats (trim bad) = some vs ∧ vs.length < 4) :
    read_dump_voro (pre ++ bad :: post) = read_dump_voro (pre ++ post) := by
  unfold read_dump_voro
  have e1 : rdRun rdInit (pre ++ bad :: post) = rdRun σ (bad :: post) := by
    rw [rdRun_append, hσ]
  have e2 : rdRun σ (bad :: post) = rdRun σ post := by
    simp only [rdRun, rdLine_skip σ bad hm hnm hbad]
  have e3 : rdRun rdInit (pre ++ post) = rdRun σ post := by
    rw [rdRun_append, hσ]
  rw [e1, e2, e3]

/-- Witness for C3 (amended): dropping the invalid 2-token line "9 9" from
an ATOMS section gives the identical parse as keeping it. -/
theorem c3_tolerant_skip_witness :
    read_dump_voro
        (mkLines ["ITEM: TIMESTEP", "5", "ITEM: ATOMS", "hdr"] ++
          ("9 9").data :: mkLines ["1 1 1.0 2.0 3.0"]) =
      read_dump_voro
        (mkLines ["ITEM: TIMESTEP", "5", "ITEM: ATOMS", "hdr"] ++
          mkLines ["1 1 1.0 2.0 3.0"]) :=
  c3_tolerant_skip _ _
    ({ acc := [], cur_ts := some 5, cur_data := [], bb := none, ids := [],
       colIdx := some (0, 1, 2, 3), mode := RdMode.scanning }) _
    (by decide) (by decide) (by decide)
    (Or.inr ⟨[9, 9], by decide, by decide⟩)

end Voro

namespace Voro

/-- While k box-bounds lines are still owed, hitting a marker line (float()
fails on its first token "ITEM:...") or the end of file before the k lines
arrive makes the parse fail. -/
theorem boundsStuck (k : Nat) :
    ∀ (acc : List (List ℚ)) (τ : RdState) (rest : List Line),
      τ.mode = RdMode.expectBounds acc k → 1 ≤ k →
      (rest.length < k ∨
        ∃ i ml, i < k ∧ rest.get? i = some ml ∧ hasPfx itemChars (trim ml) = true) →
      ∃ e, (match rdRun τ rest with
            | .error e' => (Except.error e' : Except PyErr (List Snap))
            | .ok st =>
              match st.mode with
              | RdMode.scanning => Except.ok (emitIfPending st)
              | _ => Except.error PyErr.stopIteration) = Except.error e := by
  induction k with
  | zero => intro acc τ rest _ hk; omega
  | succ k ih =>
    intro acc τ rest hm _ htr
    cases rest with
    | nil =>
      refine ⟨PyErr.stopIteration, ?_⟩
      simp only [rdRun, hm]
    | cons r rest' =>
      cases hf : pyFloats r with
      | none =>
        refine ⟨PyErr.valueError, ?_⟩
        have hl : rdLine τ r = .error .valueError := by
          simp only [rdLine, hm, hf]
        simp only [rdRun, hl]
      | some v =>
        by_cases hk0 : k = 0
        · subst hk0
          rcases htr with hlen | ⟨i, ml, hi, hgl, hmk⟩
          · simp at hlen
          · have hi0 : i = 0 := by omega
            subst hi0
            simp only [List.get?_cons_zero, Option.some.injEq] at hgl
            subst hgl
            rw [marker_pyFloats_none r hmk] at hf
            cases hf
        · have hstep : rdLine τ r =
              .ok { τ with mode := RdMode.expectBounds (acc ++ [v]) (k + 1 - 1) } := by
            simp only [rdLine, hm, hf]
            rw [if_neg (by omega)]
          have htr' : rest'.length < k ∨
              ∃ i ml, i < k ∧ rest'.get? i = some ml ∧ hasPfx itemChars (trim ml) = true := by
            rcases htr with hlen | ⟨i, ml, hi, hgl, hmk⟩
            · left; simp at hlen; omega
            · cases i with
              | zero =>
                simp only [List.get?_cons_zero, Option.some.injEq] at hgl
                subst hgl
                rw [marker_pyFloats_none r hmk] at hf
                cases hf
              | succ j =>
                right
                exact ⟨j, ml, by omega, by simpa using hgl, hmk⟩
          simp only [rdRun, hstep]
          exact ih (acc ++ [v]) _ rest' (by simp) (by omega) htr'

/-- C4: a BOX BOUNDS marker followed by fewer than 3 lines before the next
marker line or the end of input makes read_dump_voro fail (uncaught
ValueError on the marker line consumed as a bounds line, or StopIteration at
end of file) instead of silently producing a partial box. -/
theorem c4_truncated_box_fatal (pre rest : List Line) (σ : RdState) (m : Line)
    (hσ : rdRun rdInit pre = .ok σ) (hsc : σ.mode = RdMode.scanning)
    (hbox : hasPfx boxChars (trim m) = true)
    (htr : rest.length < 3 ∨
      ∃ i ml, i < 3 ∧ rest.get? i = some ml ∧ hasPfx itemChars (trim ml) = true) :
    ∃ e, read_dump_voro (pre ++ m :: rest) = .error e := by
  have hts : hasPfx tsChars (trim m) = false := by
    cases hh : hasPfx tsChars (trim m)
    · rfl
    · obtain ⟨s, hs⟩ := (hasPfx_exists _ _).mp hbox
      rw [hs] at hh
      have h0 : hasPfx tsChars (boxChars ++ s) = false := rfl
      rw [h0] at hh; cases hh
  have hstep : rdLine σ m = .ok { σ with mode := RdMode.expectBounds [] 3 } := by
    simp only [rdLine, hsc, hts, hbox, Bool.false_eq_true, if_false, if_true]
  unfold read_dump_voro
  rw [rdRun_append, hσ]
  simp only [rdRun, hstep]
  exact boundsStuck 3 [] _ rest rfl (by omega) htr

/-- Witness for C4: two bound lines then an ATOMS marker after the BOX
BOUNDS marker abort the parse with an error. -/
theorem c4_truncated_box_fatal_witness :
    ∃ e, read_dump_voro
        (mkLines ["ITEM: TIMESTEP", "5"] ++
          ("ITEM: BOX BOUNDS pp pp pp").data ::
            mkLines ["0.0 10.0", "0.0 10.0", "ITEM: ATOMS id x y z"]) = .error e :=
  c4_truncated_box_fatal _ _
    ({ acc := [], cur_ts := some 5, cur_data := [], bb := none, ids := [],
       colIdx := none, mode := RdMode.scanning }) _
    (by decide) (by decide) (by decide)
    (Or.inr ⟨2, ("ITEM: ATOMS id x y z").data, by omega, by decide, by decide⟩)

end Voro

namespace Voro

/- ----------------------------------------------------------------------
scripts/convert_to_trajectory.py, write_trajectory and verify_output
---------------------------------------------------------------------- -/

/-- Digit chars of n, most significant first (fuel n+1 always suffices). -/
def natStrGo : Nat → Nat → List Char → List Char
  | 0, _, acc => acc
  | fuel + 1, n, acc => if n = 0 then acc else natStrGo fuel (n / 10) (Nat.digitChar (n % 10) :: acc)

/-- Python str(n) for a natural number. -/
def natStr (n : Nat) : List Char := if n = 0 then [('0')] else natStrGo (n + 1) n []

/-- Python str(i) for an int. -/
def intStr (i : Int) : List Char :=
  if i < 0 then ('-') :: natStr i.natAbs else natStr i.natAbs

/-- The 6 decimal digits of k < 10^6, zero padded. -/
def frac6 (k : Nat) : List Char :=
  [Nat.digitChar (k / 100000 % 10), Nat.digitChar (k / 10000 % 10),
   Nat.digitChar (k / 1000 % 10), Nat.digitChar (k / 100 % 10),
   Nat.digitChar (k / 10 % 10), Nat.digitChar (k % 10)]

/-- Round half to even of q * 10^6, as CPython's float formatting does,
computed on the exact rational via integer division with remainder. -/
def rhe6 (q : ℚ) : Int :=
  let N : Int := q.num * 1000000
  let D : Int := (q.den : Int)
  let f : Int := N.fdiv D
  let r : Int := N - f * D
  if 2 * r < D then f else if D < 2 * r then f + 1 else (if f % 2 = 0 then f else f + 1)

/-- Python f-string formatting "{v:.6f}": fixed point with exactly 6 digits
after the decimal point (sign taken from the value). -/
def fmt6 (q : ℚ) : Line :=
  let n := rhe6 q
  let m := n.natAbs
  let core := natStr (m / 1000000) ++ ('.') :: frac6 (m % 1000000)
  if q.num < 0 then ('-') :: core else core

def numAtomsChars : Line := ("ITEM: NUMBER OF ATOMS").data
def boxFullChars : Line := ("ITEM: BOX BOUNDS pp pp pp").data
def atomsFullChars : Line := ("ITEM: ATOMS id type x y z").data

/-- The literal default box-bounds line of the writer. -/
def defaultBoundsLine : Line := ("0.0 100.0").data

/-- The box-bounds lines written for one snapshot: `if box_bounds:` takes the
default when the value is None or an empty list, else formats bounds[0] and
bounds[1] of each entry (IndexError if an entry has fewer than 2 values). -/
def boundsLinesOf : Option (List (List ℚ)) → Except PyErr (List Line)
  | some (b :: bs) =>
    (b :: bs).mapM (fun bl =>
      match bl with
      | b0 :: b1 :: _ => Except.ok (fmt6 b0 ++ (' ') :: fmt6 b1)
      | _ => Except.error PyErr.indexError)
  | _ => .ok [defaultBoundsLine, defaultBoundsLine, defaultBoundsLine]

/-- One particle line: f"{atom_id} 1 {pos[0]:.6f} {pos[1]:.6f} {pos[2]:.6f}". -/
def particleLine (i : Int) (p : ℚ × ℚ × ℚ) : Line :=
  intStr i ++ (' ') :: ('1') :: (' ') ::
    (fmt6 p.1 ++ (' ') :: (fmt6 p.2.1 ++ (' ') :: fmt6 p.2.2))

/-- The lines written for one (timestep, positions, box_bounds, atom_ids)
tuple by write_trajectory's loop body. -/
def writeSnap (s : Snap) : Except PyErr (List Line) :=
  match boundsLinesOf s.box_bounds with
  | .error e => .error e
  | .ok bl =>
    .ok ([tsChars, intStr s.timestep, numAtomsChars, natStr s.positions.length, boxFullChars]
          ++ bl ++ atomsFullChars ::
            (s.atom_ids.zip s.positions).map (fun ip => particleLine ip.1 ip.2))

/-- write_trajectory: the concatenation of the per-snapshot blocks (an
uncaught exception aborts the write). -/
def write_trajectory : List Snap → Except PyErr (List Line)
  | [] => .ok []
  | s :: t =>
    match writeSnap s with
    | .error e => .error e
    | .ok ls =>
      match write_trajectory t with
      | .error e => .error e
      | .ok rest => .ok (ls ++ rest)

/-- verify_output: reads 10 lines from each file (StopIteration if either is
shorter) and compares the stripped first lines only. -/
def verify_output (fin fout : List Line) : Except PyErr Bool :=
  if fin.length < 10 then .error .stopIteration
  else if fout.length < 10 then .error .stopIteration
  else .ok (decide (trim (fin.headD []) = trim (fout.headD [])))

/-- A token in fixed-point form with exactly 6 digits after the point:
optional minus sign, at least one digit, a point, exactly 6 digits. -/
def sixDigitTok (t : Line) : Bool :=
  let core := match t with | c :: r => if c = ('-') then r else t | [] => t
  let a := core.takeWhile Char.isDigit
  decide (a ≠ []) &&
    match core.dropWhile Char.isDigit with
    | c :: b => c = ('.') && decide (b.length = 6) && b.all Char.isDigit
    | [] => false

end Voro

example : Voro.fmt6 1 = ("1.000000").data := by decide
example : Voro.fmt6 (Rat.divInt 21 2) = ("10.500000").data := by decide
example : Voro.fmt6 (Rat.divInt (-1) 3) = ("-0.333333").data := by decide
example : Voro.fmt6 (Rat.divInt 1 2000000) = ("0.000000").data := by decide
example : Voro.fmt6 (Rat.divInt 3 2000000) = ("0.000002").data := by decide
example : Voro.sixDigitTok (("10.500000").data) = true := by decide
example : Voro.sixDigitTok (("0.0").data) = false := by decide

namespace Voro

theorem digitChar_isDigit (x : Nat) (h : x < 10) : (Nat.digitChar x).isDigit = true := by
  interval_cases x <;> decide

theorem natStrGo_digits : ∀ (fuel n : Nat) (acc : List Char),
    (∀ c ∈ acc, c.isDigit = true) → ∀ c ∈ natStrGo fuel n acc, c.isDigit = true := by
  intro fuel
  induction fuel with
  | zero => intro n acc h; simpa [natStrGo] using h
  | succ fuel ih =>
    intro n acc h c hc
    by_cases hn : n = 0
    · simp only [natStrGo, if_pos hn] at hc; exact h c hc
    · simp only [natStrGo, if_neg hn] at hc
      refine ih (n / 10) _ ?_ c hc
      intro d hd
      rcases List.mem_cons.mp hd with rfl | hd'
      · exact digitChar_isDigit _ (Nat.mod_lt _ (by omega))
      · exact h d hd'

theorem natStrGo_len : ∀ (fuel n : Nat) (acc : List Char),
    acc.length ≤ (natStrGo fuel n acc).length := by
  intro fuel
  induction fuel with
  | zero => intro n acc; simp [natStrGo]
  | succ fuel ih =>
    intro n acc
    by_cases hn : n = 0
    · simp [natStrGo, if_pos hn]
    · simp only [natStrGo, if_neg hn]
      have := ih (n / 10) (Nat.digitChar (n % 10) :: acc)
      simp at this
      omega

theorem natStr_digits (n : Nat) : ∀ c ∈ natStr n, c.isDigit = true := by
  unfold natStr
  split
  · intro c hc; simp at hc; subst hc; decide
  · exact natStrGo_digits _ _ [] (by simp)

theorem natStr_ne_nil (n : Nat) : natStr n ≠ [] := by
  unfold natStr
  split
  · simp
  · rename_i hn
    simp only [natStrGo, if_neg hn]
    intro h
    have := natStrGo_len n (n / 10) [Nat.digitChar (n % 10)]
    rw [h] at this
    simp at this

theorem frac6_digits (k : Nat) : ∀ c ∈ frac6 k, c.isDigit = true := by
  intro c hc
  simp only [frac6, List.mem_cons, List.not_mem_nil, or_false] at hc
  rcases hc with rfl | rfl | rfl | rfl | rfl | rfl <;>
    exact digitChar_isDigit _ (Nat.mod_lt _ (by omega))

theorem frac6_len (k : Nat) : (frac6 k).length = 6 := rfl

theorem takeWhile_digits (A B : List Char) (hA : ∀ c ∈ A, Char.isDigit c = true) :
    (A ++ ('.') :: B).takeWhile Char.isDigit = A := by
  induction A with
  | nil =>
    have : Char.isDigit ('.') = false := by decide
    simp [List.takeWhile_cons, this]
  | cons a A ih =>
    have ha : Char.isDigit a = true := hA a (by simp)
    simp only [List.cons_append, List.takeWhile_cons, ha, if_true]
    rw [ih (fun c hc => hA c (by simp [hc]))]

theorem dropWhile_digits (A B : List Char) (hA : ∀ c ∈ A, Char.isDigit c = true) :
    (A ++ ('.') :: B).dropWhile Char.isDigit = ('.') :: B := by
  induction A with
  | nil =>
    have : Char.isDigit ('.') = false := by decide
    simp [List.dropWhile_cons, this]
  | cons a A ih =>
    have ha : Char.isDigit a = true := hA a (by simp)
    simp only [List.cons_append, List.dropWhile_cons, ha, if_true]
    exact ih (fun c hc => hA c (by simp [hc]))

theorem sixDigitTok_shape (A b : List Char) (hne : A ≠ [])
    (hA : ∀ c ∈ A, c.isDigit = true) (hb : b.length = 6)
    (hbd : ∀ c ∈ b, c.isDigit = true) :
    sixDigitTok (A ++ ('.') :: b) = true ∧
    sixDigitTok (('-') :: (A ++ ('.') :: b)) = true := by
  cases A with
  | nil => exact absurd rfl hne
  | cons c cs =>
    have hc : Char.isDigit c = true := hA c (by simp)
    have hcd : c ≠ ('-') := by
      intro h; rw [h] at hc; exact absurd hc (by decide)
    have htw := takeWhile_digits (c :: cs) b hA
    have hdw := dropWhile_digits (c :: cs) b hA
    have hall : b.all Char.isDigit = true := List.all_eq_true.mpr (fun x hx => hbd x hx)
    have htw' : List.takeWhile Char.isDigit (c :: (cs ++ ('.') :: b)) = c :: cs := by
      simpa using htw
    have hdw' : List.dropWhile Char.isDigit (c :: (cs ++ ('.') :: b)) = ('.') :: b := by
      simpa using hdw
    constructor
    · unfold sixDigitTok
      simp [hcd, htw', hdw', hb, hall]
    · unfold sixDigitTok
      simp [htw', hdw', hb, hall]

/-- Every value rendered by the writer's float formatting has exactly 6
digits after the decimal point. -/
theorem sixDigitTok_fmt6 (q : ℚ) : sixDigitTok (fmt6 q) = true := by
  unfold fmt6
  have h := sixDigitTok_shape (natStr ((rhe6 q).natAbs / 1000000))
    (frac6 ((rhe6 q).natAbs % 1000000)) (natStr_ne_nil _) (natStr_digits _)
    (frac6_len _) (frac6_digits _)
  split
  · exact h.2
  · exact h.1

/-- No space occurs in a formatted float. -/
theorem fmt6_no_space (q : ℚ) : ∀ c ∈ fmt6 q, c ≠ (' ') := by
  unfold fmt6
  intro c hc
  have hdig : ∀ d : Char, d.isDigit = true → d ≠ (' ') := by
    intro d hd h; rw [h] at hd; exact absurd hd (by decide)
  split at hc
  · rcases List.mem_cons.mp hc with rfl | hc'
    · decide
    · rcases List.mem_append.mp hc' with h1 | h2
      · exact hdig c (natStr_digits _ c h1)
      · rcases List.mem_cons.mp h2 with rfl | h3
        · decide
        · exact hdig c (frac6_digits _ c h3)
  · rcases List.mem_append.mp hc with h1 | h2
    · exact hdig c (natStr_digits _ c h1)
    · rcases List.mem_cons.mp h2 with rfl | h3
      · decide
      · exact hdig c (frac6_digits _ c h3)

/-- Splitting at the single separating space is unambiguous when neither
token contains a space. -/
theorem space_split_inj (u : List Char) : ∀ (u' v v' : List Char),
    (∀ c ∈ u, c ≠ (' ')) → (∀ c ∈ u', c ≠ (' ')) →
    u ++ (' ') :: v = u' ++ (' ') :: v' → u = u' ∧ v = v' := by
  induction u with
  | nil =>
    intro u' v v' _ hu' h
    cases u' with
    | nil => simpa using h
    | cons a u'' =>
      simp only [List.nil_append, List.cons_append, List.cons.injEq] at h
      exact absurd h.1.symm (hu' a (by simp))
  | cons a u ih =>
    intro u' v v' hu hu' h
    cases u' with
    | nil =>
      simp only [List.cons_append, List.nil_append, List.cons.injEq] at h
      exact absurd h.1 (hu a (by simp))
    | cons a' u'' =>
      simp only [List.cons_append, List.cons.injEq] at h
      obtain ⟨rfl, h2⟩ := h
      obtain ⟨h3, h4⟩ := ih u'' v v' (fun c hc => hu c (by simp [hc]))
        (fun c hc => hu' c (by simp [hc])) h2
      exact ⟨by rw [h3], h4⟩

end Voro

namespace Voro

/-- Number of box-bounds lines written for one snapshot. -/
def boundsCount : Option (List (List ℚ)) → Nat
  | some (b :: bs) => (b :: bs).length
  | _ => 3

/-- Successful mapM over Except gives a same-length list whose entries are
the successful images, positionwise. -/
theorem exceptMapM_get {α β : Type} {ε : Type} (f : α → Except ε β) :
    ∀ (l : List α) (r : List β), l.mapM f = .ok r →
      r.length = l.length ∧
        ∀ k a, l.get? k = some a → ∃ b, r.get? k = some b ∧ f a = .ok b := by
  intro l
  induction l with
  | nil =>
    intro r h
    simp only [List.mapM_nil, pure] at h
    cases h
    exact ⟨rfl, by intro k a ha; cases k <;> cases ha⟩
  | cons a l ih =>
    intro r h
    rw [List.mapM_cons] at h
    cases hf : f a with
    | error e => rw [hf] at h; cases h
    | ok b =>
      rw [hf] at h
      cases hm : l.mapM f with
      | error e =>
        rw [hm] at h; cases h
      | ok bs =>
        rw [hm] at h
        cases h
        obtain ⟨hlen, hget⟩ := ih bs hm
        refine ⟨by simp [hlen], ?_⟩
        intro k x hx
        cases k with
        | zero =>
          simp only [List.get?_cons_zero, Option.some.injEq] at hx
          subst hx
          exact ⟨b, rfl, hf⟩
        | succ k =>
          simp only [List.get?_cons_succ] at hx ⊢
          exact hget k x hx

end Voro

namespace Voro

/-- C6 counterexample: when box bounds are absent the writer emits the
literal default line "0.0 100.0", whose float fields have 1 digit after the
decimal point, not 6 — falsifying the claim that every float field emitted
by write_trajectory (including the substituted default bounds) is rendered
with exactly 6 digits after the decimal point. -/
theorem c6_default_line_not_six_digits :
    write_trajectory [⟨0, [(1, 1, 1)], none, [1]⟩] =
      .ok (mkLines ["ITEM: TIMESTEP", "0", "ITEM: NUMBER OF ATOMS", "1",
        "ITEM: BOX BOUNDS pp pp pp", "0.0 100.0", "0.0 100.0", "0.0 100.0",
        "ITEM: ATOMS id type x y z", "1 1 1.000000 1.000000 1.000000"])
    ∧ splitWs defaultBoundsLine = [("0.0").data, ("100.0").data]
    ∧ sixDigitTok (("0.0").data) = false
    ∧ sixDigitTok (("100.0").data) = false :=
  ⟨by decide, by decide, by decide, by decide⟩

/-- C6 (amended): in every snapshot block written by write_trajectory, the
bounds lines coming from parsed bounds and all particle coordinates are
rendered in fixed-point form with exactly 6 digits after the decimal point,
particle lines appear in input (zip) order with the constant type value 1 —
but when box bounds are None or empty the three substituted default lines
are the literal "0.0 100.0" (1 digit after the point), as the
counterexample shows. -/
theorem c6_formatting (s : Snap) (out : List Line) (h : writeSnap s = .ok out) :
    (∀ b, s.box_bounds = some b → b ≠ [] →
       ∀ k, k < b.length →
         ∃ u v, out.get? (5 + k) = some (u ++ (' ') :: v) ∧
           sixDigitTok u = true ∧ sixDigitTok v = true)
    ∧ ((s.box_bounds = none ∨ s.box_bounds = some []) →
         out = [tsChars, intStr s.timestep, numAtomsChars, natStr s.positions.length,
                boxFullChars, defaultBoundsLine, defaultBoundsLine, defaultBoundsLine,
                atomsFullChars] ++
               (s.atom_ids.zip s.positions).map (fun ip => particleLine ip.1 ip.2))
    ∧ (∀ k i p, (s.atom_ids.zip s.positions).get? k = some (i, p) →
         out.get? (6 + boundsCount s.box_bounds + k) = some (particleLine i p) ∧
           particleLine i p = intStr i ++ (' ') :: ('1') :: (' ') ::
             (fmt6 p.1 ++ (' ') :: (fmt6 p.2.1 ++ (' ') :: fmt6 p.2.2)) ∧
           sixDigitTok (fmt6 p.1) = true ∧ sixDigitTok (fmt6 p.2.1) = true ∧
           sixDigitTok (fmt6 p.2.2) = true) := by
  unfold writeSnap at h
  cases hb : boundsLinesOf s.box_bounds with
  | error e => rw [hb] at h; cases h
  | ok bl =>
    rw [hb] at h
    cases h
    refine ⟨?_, ?_, ?_⟩
    · intro b hbb hbne k hk
      cases b with
      | nil => exact absurd rfl hbne
      | cons b0 brest =>
        rw [hbb] at hb
        unfold boundsLinesOf at hb
        obtain ⟨hlen, hget⟩ := exceptMapM_get _ _ _ hb
        obtain ⟨entry, hbk⟩ : ∃ e, (b0 :: brest).get? k = some e :=
          ⟨_, List.get?_eq_get hk⟩
        obtain ⟨y, hy, hfy⟩ := hget k entry hbk
        cases entry with
        | nil => cases hfy
        | cons e0 erest =>
          cases erest with
          | nil => cases hfy
          | cons e1 erest2 =>
            cases hfy
            refine ⟨fmt6 e0, fmt6 e1, ?_, sixDigitTok_fmt6 _, sixDigitTok_fmt6 _⟩
            have hlt : 5 + k <
                ([tsChars, intStr s.timestep, numAtomsChars, natStr s.positions.length,
                  boxFullChars] ++ bl).length := by
              simp only [List.length_append, List.length_cons]
              simp only [List.length_cons] at hlen
              simp at hk ⊢
              omega
            rw [List.get?_append hlt]
            rw [List.get?_append_right (by simp)]
            simpa using hy
    · intro hd
      have hbl : bl = [defaultBoundsLine, defaultBoundsLine, defaultBoundsLine] := by
        rcases hd with h0 | h0 <;> rw [h0] at hb <;>
          (unfold boundsLinesOf at hb; cases hb; rfl)
      rw [hbl]
      rfl
    · intro k i p hzip
      have hblen : bl.length = boundsCount s.box_bounds := by
        cases hbb : s.box_bounds with
        | none =>
          rw [hbb] at hb; unfold boundsLinesOf at hb; cases hb; rfl
        | some b =>
          cases b with
          | nil => rw [hbb] at hb; unfold boundsLinesOf at hb; cases hb; rfl
          | cons b0 br =>
            rw [hbb] at hb
            unfold boundsLinesOf at hb
            have := (exceptMapM_get _ _ _ hb).1
            rw [this]; rfl
      have hge : ([tsChars, intStr s.timestep, numAtomsChars, natStr s.positions.length,
          boxFullChars] ++ bl).length ≤ 6 + boundsCount s.box_bounds + k := by
        simp only [List.length_append, List.length_cons]
        simp [hblen]
        omega
      rw [List.get?_append_right hge]
      have hidx : 6 + boundsCount s.box_bounds + k -
          ([tsChars, intStr s.timestep, numAtomsChars, natStr s.positions.length,
            boxFullChars] ++ bl).length = k + 1 := by
        simp only [List.length_append, List.length_cons]
        simp [hblen]
        omega
      rw [hidx]
      simp only [List.get?_cons_succ]
      refine ⟨?_, rfl, sixDigitTok_fmt6 _, sixDigitTok_fmt6 _, sixDigitTok_fmt6 _⟩
      rw [List.get?_map]
      rw [hzip]
      rfl

end Voro

namespace Voro

def c6wSnap : Snap := ⟨7, [(1, 2, 3)], some [[0, 1], [0, Rat.divInt 21 2], [0, 3]], [4]⟩

def c6wOut : List Line := mkLines
  ["ITEM: TIMESTEP", "7", "ITEM: NUMBER OF ATOMS", "1", "ITEM: BOX BOUNDS pp pp pp",
   "0.000000 1.000000", "0.000000 10.500000", "0.000000 3.000000",
   "ITEM: ATOMS id type x y z", "4 1 1.000000 2.000000 3.000000"]

/-- Witness for C6 (amended) at a concrete snapshot with real bounds. -/
theorem c6_formatting_witness :
    (∃ u v, c6wOut.get? (5 + 1) = some (u ++ (' ') :: v) ∧
       sixDigitTok u = true ∧ sixDigitTok v = true) ∧
    c6wOut.get? (6 + boundsCount c6wSnap.box_bounds + 0) = some (particleLine 4 (1, 2, 3)) :=
  ⟨(c6_formatting c6wSnap c6wOut (by decide)).1
      [[0, 1], [0, Rat.divInt 21 2], [0, 3]] rfl (by decide) 1 (by decide),
   ((c6_formatting c6wSnap c6wOut (by decide)).2.2 0 4 (1, 2, 3) (by decide)).1⟩

/- ----------------------------------------------------------------------
parser output invariants (used for the round-trip property)
---------------------------------------------------------------------- -/

/-- Shape of every snapshot read_dump_voro can emit: at least one particle,
ids and positions in step, bounds absent or exactly 3 entries. -/
def SnapOK (s : Snap) : Prop :=
  s.positions ≠ [] ∧ s.atom_ids.length = s.positions.length ∧
    (s.box_bounds = none ∨ ∃ b, s.box_bounds = some b ∧ b.length = 3)

/-- Loop-state invariant of read_dump_voro. -/
def StOK (st : RdState) : Prop :=
  (∀ s ∈ st.acc, SnapOK s) ∧
  st.ids.length = st.cur_data.length ∧
  (st.bb = none ∨ ∃ b, st.bb = some b ∧ b.length = 3) ∧
  (∀ acc k, st.mode = RdMode.expectBounds acc k → acc.length + k = 3 ∧ 1 ≤ k)

theorem stOK_init : StOK rdInit := by
  refine ⟨by simp [rdInit], rfl, Or.inl rfl, ?_⟩
  intro acc k h
  cases h

theorem emit_ok (st : RdState) (h : StOK st) : ∀ s ∈ emitIfPending st, SnapOK s := by
  intro s hs
  unfold emitIfPending at hs
  obtain ⟨hacc, hlen, hbb, _⟩ := h
  split at hs
  · split at hs
    · rcases List.mem_append.mp hs with h1 | h2
      · exact hacc s h1
      · simp at h2
        subst h2
        exact ⟨by assumption, hlen, hbb⟩
    · exact hacc s hs
  · exact hacc s hs

theorem rdLine_ok (st : RdState) (l : Line) (st' : RdState)
    (h : rdLine st l = .ok st') (hok : StOK st) : StOK st' := by
  obtain ⟨hacc, hlen, hbb, hmode⟩ := hok
  cases hmo : st.mode with
  | expectTs =>
    simp only [rdLine, hmo] at h
    cases hp : pyInt l with
    | none => rw [hp] at h; cases h
    | some n =>
      simp only [hp] at h; cases h
      exact ⟨hacc, hlen, hbb, by intro acc k hk; cases hk⟩
  | expectBounds acc0 k0 =>
    simp only [rdLine, hmo] at h
    cases hp : pyFloats l with
    | none => rw [hp] at h; cases h
    | some v =>
      simp only [hp] at h
      obtain ⟨h3, hk⟩ := hmode acc0 k0 hmo
      by_cases hk1 : k0 ≤ 1
      · rw [if_pos hk1] at h; cases h
        refine ⟨hacc, hlen, Or.inr ⟨_, rfl, by simp; omega⟩,
          by intro acc k hk2; cases hk2⟩
      · rw [if_neg hk1] at h; cases h
        refine ⟨hacc, hlen, hbb, ?_⟩
        intro acc k hk2
        simp only [RdMode.expectBounds.injEq] at hk2
        obtain ⟨rfl, rfl⟩ := hk2
        exact ⟨by simp; omega, by omega⟩
  | expectHeader =>
    simp only [rdLine, hmo] at h
    cases h
    exact ⟨hacc, hlen, hbb, by intro acc k hk; cases hk⟩
  | scanning =>
    simp only [rdLine, hmo] at h
    by_cases h1 : hasPfx tsChars (trim l) = true
    · rw [if_pos h1] at h; cases h
      exact ⟨emit_ok st ⟨hacc, hlen, hbb, hmode⟩, rfl, hbb,
        by intro acc k hk; cases hk⟩
    · rw [if_neg h1] at h
      by_cases h2 : hasPfx boxChars (trim l) = true
      · rw [if_pos h2] at h; cases h
        refine ⟨hacc, hlen, hbb, ?_⟩
        intro acc k hk2
        simp only [RdMode.expectBounds.injEq] at hk2
        obtain ⟨rfl, rfl⟩ := hk2
        exact ⟨by simp, by omega⟩
      · rw [if_neg h2] at h
        by_cases h3 : hasPfx itemChars (trim l) = true
        · rw [if_pos h3] at h
          by_cases h4 : hasPfx atomsChars (trim l) = true
          · rw [if_pos h4] at h; cases h
            exact ⟨hacc, hlen, hbb, by intro acc k hk; cases hk⟩
          · rw [if_neg h4] at h; cases h
            exact ⟨hacc, hlen, hbb, hmode⟩
        · rw [if_neg h3] at h
          repeat' split at h
          all_goals cases h
          all_goals first
            | exact ⟨hacc, hlen, hbb, hmode⟩
            | exact ⟨hacc, by simp [hlen], hbb, hmode⟩
            | exact ⟨hacc, hlen, hbb, by intro acc k hk; cases hk⟩
            | exact ⟨hacc, by simp [hlen], hbb, by intro acc k hk; cases hk⟩

theorem rdRun_ok (st : RdState) (lines : List Line) (st' : RdState)
    (h : rdRun st lines = .ok st') (hok : StOK st) : StOK st' := by
  induction lines generalizing st with
  | nil => simp only [rdRun] at h; cases h; exact hok
  | cons l rest ih =>
    simp only [rdRun] at h
    cases hl : rdLine st l with
    | error e => rw [hl] at h; cases h
    | ok st1 =>
      rw [hl] at h
      exact ih st1 h (rdLine_ok st l st1 hl hok)

/-- Every snapshot produced by a successful parse satisfies SnapOK. -/
theorem parsed_SnapOK (lines : List Line) (data : List Snap)
    (h : read_dump_voro lines = .ok data) : ∀ s ∈ data, SnapOK s := by
  unfold read_dump_voro at h
  cases hr : rdRun rdInit lines with
  | error e => rw [hr] at h; cases h
  | ok τ =>
    simp only [hr] at h
    cases hm : τ.mode with
    | scanning =>
      simp only [hm] at h
      cases h
      exact emit_ok τ (rdRun_ok rdInit lines τ hr stOK_init)
    | expectTs => simp only [hm] at h; cases h
    | expectBounds acc k => simp only [hm] at h; cases h
    | expectHeader => simp only [hm] at h; cases h

end Voro

namespace Voro

/-- Shape of one written snapshot block: it starts with the "ITEM: TIMESTEP"
line and spans at least 10 lines (5 headers, 3 bounds, the ATOMS header, and
at least one particle line). -/
theorem writeSnap_shape (s : Snap) (w : List Line) (hok : SnapOK s)
    (h : writeSnap s = .ok w) : 10 ≤ w.length ∧ ∃ rest, w = tsChars :: rest := by
  obtain ⟨hpos, hids, hbb⟩ := hok
  unfold writeSnap at h
  cases hb : boundsLinesOf s.box_bounds with
  | error e => rw [hb] at h; cases h
  | ok bl =>
    rw [hb] at h
    cases h
    have hbl : bl.length = 3 := by
      rcases hbb with h0 | ⟨b, h0, hb3⟩
      · rw [h0] at hb; unfold boundsLinesOf at hb; cases hb; rfl
      · cases b with
        | nil => simp at hb3
        | cons b0 br =>
          rw [h0] at hb
          unfold boundsLinesOf at hb
          have := (exceptMapM_get _ _ _ hb).1
          rw [this, hb3]
    constructor
    · have hz : (s.atom_ids.zip s.positions).length = s.positions.length := by
        rw [List.length_zip, hids, Nat.min_self]
      have hp1 : 1 ≤ s.positions.length := by
        cases hq : s.positions with
        | nil => exact absurd hq hpos
        | cons p ps => simp
      simp only [List.length_append, List.length_cons, List.length_map, hz, hbl]
      simp
      omega
    · simp only [List.cons_append, List.append_assoc]
      exact ⟨_, rfl⟩

/-- C8: for a well-formed input (first line is the TIMESTEP marker, the file
has the 10 lines verify_output insists on reading, the parse succeeds with
at least one snapshot, and the write succeeds), the written file's first
header line equals the input's first header line, so verify_output — which
compares only the stripped first lines, not full byte equality — returns
True. -/
theorem c8_roundtrip_verify (l0 : Line) (ls : List Line) (data : List Snap) (out : List Line)
    (h0 : trim l0 = tsChars)
    (hr : read_dump_voro (l0 :: ls) = .ok data)
    (hd : data ≠ [])
    (hw : write_trajectory data = .ok out)
    (hlen : 10 ≤ (l0 :: ls).length) :
    verify_output (l0 :: ls) out = .ok true := by
  cases data with
  | nil => exact absurd rfl hd
  | cons s0 ds =>
    unfold write_trajectory at hw
    cases hw0 : writeSnap s0 with
    | error e => rw [hw0] at hw; cases hw
    | ok w0 =>
      simp only [hw0] at hw
      cases hwr : write_trajectory ds with
      | error e => rw [hwr] at hw; cases hw
      | ok wr =>
        simp only [hwr] at hw
        cases hw
        have hok := parsed_SnapOK _ _ hr s0 (by simp)
        obtain ⟨h10, rest, hw0s⟩ := writeSnap_shape s0 w0 hok hw0
        unfold verify_output
        rw [if_neg (by simp at hlen ⊢; omega)]
        rw [if_neg (by
          simp only [List.length_append]
          omega)]
        simp only [hw0s, List.cons_append, List.headD]
        rw [h0]
        have ht : trim tsChars = tsChars := by decide
        rw [ht]
        simp

end Voro

namespace Voro

def c8wOut : List Line := mkLines
  ["ITEM: TIMESTEP", "1000", "ITEM: NUMBER OF ATOMS", "1", "ITEM: BOX BOUNDS pp pp pp",
   "0.000000 100.000000", "0.000000 100.000000", "0.000000 100.000000",
   "ITEM: ATOMS id type x y z", "2 1 1.000000 11.000000 21.000000"]

/-- Witness for C8 at the spec's section-6 excerpt. -/
theorem c8_roundtrip_verify_witness :
    verify_output (("ITEM: TIMESTEP").data ::
      mkLines ["1000", "ITEM: NUMBER OF ATOMS", "4", "ITEM: BOX BOUNDS pp pp pp",
        "0.0 100.0", "0.0 100.0", "0.0 100.0", "ITEM: ATOMS id type x y z",
        "1 1 10.5 20.3 5.0", "2 1 11.0 21.0 5.2"]) c8wOut = .ok true :=
  c8_roundtrip_verify _ _
    [⟨1000, [(1, 11, 21)], some [[0, 100], [0, 100], [0, 100]], [2]⟩] _
    (by decide) (by decide) (by decide) (by decide) (by decide)

end Voro

namespace Voro

/-- A snapshot section with no BOX BOUNDS marker (timestep 7, an ATOMS
header, one data line). -/
def c10Section : List Line := mkLines
  ["ITEM: TIMESTEP", "7", "ITEM: ATOMS id type x y z", "a b c d", "5 1.5 2.5 3.5"]

/-- C10: the TIMESTEP branch never resets box_bounds, so a snapshot whose
own section has no BOX BOUNDS marker is emitted carrying whatever bounds
value the scan holds from earlier sections (σ.bb — the most recently parsed
bounds, or None if none was ever seen); and the writer substitutes the
default 0–100 cube exactly when the carried value is None or empty, never
for a non-empty bounds list. -/
theorem c10_bounds_carry (pre : List Line) (σ : RdState)
    (hσ : rdRun rdInit pre = .ok σ) (hm : σ.mode = RdMode.scanning) :
    read_dump_voro (pre ++ c10Section) =
      .ok (emitIfPending σ ++
        [⟨7, [(Rat.divInt 3 2, Rat.divInt 5 2, Rat.divInt 7 2)], σ.bb, [5]⟩])
    ∧ boundsLinesOf none = .ok [defaultBoundsLine, defaultBoundsLine, defaultBoundsLine]
    ∧ boundsLinesOf (some []) = .ok [defaultBoundsLine, defaultBoundsLine, defaultBoundsLine]
    ∧ (∀ b bs out, boundsLinesOf (some (b :: bs)) = .ok out → defaultBoundsLine ∉ out) := by
  refine ⟨?_, rfl, rfl, ?_⟩
  · have hp1 : hasPfx tsChars (trim (("ITEM: TIMESTEP").data)) = true := by decide
    have e1 : rdLine σ (("ITEM: TIMESTEP").data) =
        .ok { σ with acc := emitIfPending σ, cur_data := [], ids := [], mode := RdMode.expectTs } := by
      simp only [rdLine, hm]
      rw [if_pos hp1]
    have e2 : rdLine { σ with acc := emitIfPending σ, cur_data := [], ids := [], mode := RdMode.expectTs } (("7").data) =
        .ok { σ with acc := emitIfPending σ, cur_data := [], ids := [], cur_ts := some 7, mode := RdMode.scanning } := by
      simp only [rdLine]
      rw [show pyInt (("7").data) = some 7 from by decide]
    have hp3t : hasPfx tsChars (trim (("ITEM: ATOMS id type x y z").data)) = false := by decide
    have hp3b : hasPfx boxChars (trim (("ITEM: ATOMS id type x y z").data)) = false := by decide
    have hp3i : hasPfx itemChars (trim (("ITEM: ATOMS id type x y z").data)) = true := by decide
    have hp3a : hasPfx atomsChars (trim (("ITEM: ATOMS id type x y z").data)) = true := by decide
    have e3 : rdLine { σ with acc := emitIfPending σ, cur_data := [], ids := [], cur_ts := some 7, mode := RdMode.scanning } (("ITEM: ATOMS id type x y z").data) =
        .ok { σ with acc := emitIfPending σ, cur_data := [], ids := [], cur_ts := some 7, mode := RdMode.expectHeader } := by
      simp only [rdLine]
      rw [if_neg (by simp [hp3t]), if_neg (by simp [hp3b]), if_pos hp3i, if_pos hp3a]
    have e4 : rdLine { σ with acc := emitIfPending σ, cur_data := [], ids := [], cur_ts := some 7, mode := RdMode.expectHeader } (("a b c d").data) =
        .ok { σ with acc := emitIfPending σ, cur_data := [], ids := [], cur_ts := some 7, colIdx := some (0, 1, 2, 3), mode := RdMode.scanning } := by
      simp only [rdLine]
      rw [show splitWs (trim (("a b c d").data)) =
        [("a").data, ("b").data, ("c").data, ("d").data] from by decide]
      rfl
    have hd1 : hasPfx tsChars (trim (("5 1.5 2.5 3.5").data)) = false := by decide
    have hd2 : hasPfx boxChars (trim (("5 1.5 2.5 3.5").data)) = false := by decide
    have hd3 : hasPfx itemChars (trim (("5 1.5 2.5 3.5").data)) = false := by decide
    have hd4 : pyFloats (trim (("5 1.5 2.5 3.5").data)) =
        some [5, Rat.divInt 3 2, Rat.divInt 5 2, Rat.divInt 7 2] := by decide
    have e5 : rdLine { σ with acc := emitIfPending σ, cur_data := [], ids := [], cur_ts := some 7, colIdx := some (0, 1, 2, 3), mode := RdMode.scanning } (("5 1.5 2.5 3.5").data) =
        .ok { σ with acc := emitIfPending σ, cur_data := [(Rat.divInt 3 2, Rat.divInt 5 2, Rat.divInt 7 2)], ids := [5], cur_ts := some 7, colIdx := some (0, 1, 2, 3), mode := RdMode.scanning } := by
      simp only [rdLine]
      rw [if_neg (by simp [hd1]), if_neg (by simp [hd2]), if_neg (by simp [hd3])]
      rw [hd4]
      norm_num
      rw [show pyTrunc 5 = 5 from by decide]
    have hrun : rdRun σ c10Section =
        .ok { σ with acc := emitIfPending σ, cur_data := [(Rat.divInt 3 2, Rat.divInt 5 2, Rat.divInt 7 2)], ids := [5], cur_ts := some 7, colIdx := some (0, 1, 2, 3), mode := RdMode.scanning } := by
      simp only [c10Section, mkLines, List.map, rdRun, e1, e2, e3, e4, e5]
    have e0 : rdRun rdInit (pre ++ c10Section) = rdRun σ c10Section := by
      rw [rdRun_append, hσ]
    unfold read_dump_voro
    rw [e0, hrun]
    simp [emitIfPending]
  · intro b bs out h hmem
    obtain ⟨hlen, hget⟩ := exceptMapM_get _ _ _ h
    obtain ⟨k, hk⟩ := List.mem_iff_get?.mp hmem
    have hklt : k < (b :: bs).length := by
      rw [← hlen]
      by_contra hge
      rw [List.get?_eq_none.mpr (by omega)] at hk
      cases hk
    obtain ⟨entry, hbk⟩ : ∃ e, (b :: bs).get? k = some e := ⟨_, List.get?_eq_get hklt⟩
    obtain ⟨y, hy, hfy⟩ := hget k entry hbk
    rw [hk] at hy
    cases hy
    cases entry with
    | nil => cases hfy
    | cons e0 erest =>
      cases erest with
      | nil => cases hfy
      | cons e1 erest2 =>
        have hdef : defaultBoundsLine = ("0.0").data ++ (' ') :: ("100.0").data := by decide
        have heq : fmt6 e0 ++ (' ') :: fmt6 e1 = ("0.0").data ++ (' ') :: ("100.0").data := by
          rw [← hdef]
          exact ((Except.ok.injEq _ _).mp hfy)
        obtain ⟨hu, _⟩ := space_split_inj (fmt6 e0) (("0.0").data) (fmt6 e1) (("100.0").data)
          (fmt6_no_space e0) (by decide) heq
        have h6 := sixDigitTok_fmt6 e0
        rw [hu] at h6
        exact absurd h6 (by decide)

end Voro

namespace Voro

def c10wState : RdState :=
  { acc := [], cur_ts := some 1000, cur_data := [(1, 11, 21)],
    bb := some [[0, 100], [0, 100], [0, 100]], ids := [2],
    colIdx := some (0, 1, 2, 3), mode := RdMode.scanning }

/-- Witness for C10: appending a bounds-free section to the section-6 file
emits its snapshot still carrying the earlier file's box bounds. -/
theorem c10_bounds_carry_witness :
    read_dump_voro (spec6Input ++ c10Section) =
      .ok (emitIfPending c10wState ++
        [⟨7, [(Rat.divInt 3 2, Rat.divInt 5 2, Rat.divInt 7 2)], c10wState.bb, [5]⟩]) :=
  (c10_bounds_carry spec6Input c10wState (by decide) rfl).1

end Voro

namespace Voro

/- ----------------------------------------------------------------------
scripts/analyze_dislocations.py, read_lammps_dump
---------------------------------------------------------------------- -/

/-- The per-timestep record stored by read_lammps_dump. -/
structure LdFrame where
  positions : List (ℚ × ℚ × ℚ)
  types : List Int
  csp : List ℚ
  box_bounds : Option (List (ℚ × ℚ))
deriving DecidableEq, Repr

/-- Pending next(f) consumptions of read_lammps_dump's loop. -/
inductive LdMode where
  | scanning
  | expectTs
  | expectCount
  | expectBounds (acc : List (ℚ × ℚ)) (k : Nat)
deriving DecidableEq, Repr

/-- Loop state of read_lammps_dump (its locals, plus the mode).  `data` is
the insertion-ordered dict of emitted frames. -/
structure LdState where
  data : List (Int × LdFrame)
  cur_ts : Option Int
  positions : List (ℚ × ℚ × ℚ)
  types : List Int
  csp : List ℚ
  bb : Option (List (ℚ × ℚ))
  reading : Bool
  expected : Option Int
  atoms_read : Int
  mode : LdMode
deriving DecidableEq, Repr

def ldInit : LdState :=
  { data := [], cur_ts := none, positions := [], types := [], csp := [], bb := none,
    reading := false, expected := none, atoms_read := 0, mode := LdMode.scanning }

/-- Python dict assignment data[ts] = frame on an insertion-ordered dict. -/
def upsert (k : Int) (v : LdFrame) : List (Int × LdFrame) → List (Int × LdFrame)
  | [] => [(k, v)]
  | (k', v') :: t => if k' = k then (k, v) :: t else (k', v') :: upsert k v t

/-- The save-data-for-previous-timestep rule of read_lammps_dump: store only
when a timestep is current, at least one atom was read, and the timestep is
selected by target_timesteps (None selects everything). -/
def ldEmit (target : Option (List Int)) (st : LdState) : List (Int × LdFrame) :=
  match st.cur_ts with
  | some ts =>
    if 0 < st.atoms_read then
      match target with
      | none => upsert ts ⟨st.positions, st.types, st.csp, st.bb⟩ st.data
      | some sel =>
        if ts ∈ sel then upsert ts ⟨st.positions, st.types, st.csp, st.bb⟩ st.data
        else st.data
    else st.data
  | none => st.data

/-- The try-block body of read_lammps_dump's data-line decoder: at least 11
tokens, int(parts[0]) and int(parts[1]), float(parts[2:5]), float(parts[10]).
None models the caught ValueError/IndexError and skips the line; the parsed
atom_id must parse but is never stored by the source, so it is dropped from
the returned (type, x, y, z, csp) record. -/
def ldAtomParse (l : Line) : Option (Int × ℚ × ℚ × ℚ × ℚ) :=
  let parts := splitWs l
  if 11 ≤ parts.length then
    match pyInt (parts.getD 0 []), pyInt (parts.getD 1 []),
        pyFloat (parts.getD 2 []), pyFloat (parts.getD 3 []),
        pyFloat (parts.getD 4 []), pyFloat (parts.getD 10 []) with
    | some _, some aty, some x, some y, some z, some cv => some (aty, x, y, z, cv)
    | _, _, _, _, _, _ => none
  else none

/-- Processing of one physical line by read_lammps_dump.  Markers are found
by substring containment on the raw line; bound lines need 2 float tokens
(IndexError/ValueError are uncaught there); a data line is decoded by
ldAtomParse with failures skipped. -/
def ldLine (target : Option (List Int)) (st : LdState) (l : Line) : Except PyErr LdState :=
  match st.mode with
  | .expectTs =>
    match pyInt l with
    | none => .error .valueError
    | some n =>
      .ok { st with cur_ts := some n, positions := [], types := [], csp := [],
                    reading := false, expected := none, atoms_read := 0, mode := LdMode.scanning }
  | .expectCount =>
    match pyInt l with
    | none => .error .valueError
    | some n => .ok { st with expected := some n, mode := LdMode.scanning }
  | .expectBounds acc k =>
    match splitWs l with
    | [] => .error .indexError
    | [a] =>
      match pyFloat a with
      | none => .error .valueError
      | some _ => .error .indexError
    | a :: b :: _ =>
      match pyFloat a with
      | none => .error .valueError
      | some x =>
        match pyFloat b with
        | none => .error .valueError
        | some y =>
          if k ≤ 1 then .ok { st with bb := some (acc ++ [(x, y)]), mode := LdMode.scanning }
          else .ok { st with mode := LdMode.expectBounds (acc ++ [(x, y)]) (k - 1) }
  | .scanning =>
    if containsSub tsChars l then
      .ok { st with data := ldEmit target st, mode := LdMode.expectTs }
    else if containsSub numAtomsChars l then
      .ok { st with mode := LdMode.expectCount }
    else if containsSub boxChars l then
      .ok { st with mode := LdMode.expectBounds [] 3 }
    else if containsSub atomsChars l then
      .ok { st with reading := true }
    else if st.reading then
      match ldAtomParse l with
      | some (aty, x, y, z, cv) =>
        .ok { st with positions := st.positions ++ [(x, y, z)],
                      types := st.types ++ [aty], csp := st.csp ++ [cv],
                      atoms_read := st.atoms_read + 1,
                      reading := match st.expected with
                                 | some n => if n ≤ st.atoms_read + 1 then false else st.reading
                                 | none => st.reading }
      | none => .ok st
    else .ok st

/-- The for-loop of read_lammps_dump. -/
def ldRun (target : Option (List Int)) : LdState → List Line → Except PyErr LdState
  | st, [] => .ok st
  | st, l :: rest =>
    match ldLine target st l with
    | .error e => .error e
    | .ok st' => ldRun target st' rest

/-- read_lammps_dump on a file given as its lines. -/
def read_lammps_dump (lines : List Line) (target : Option (List Int)) :
    Except PyErr (List (Int × LdFrame)) :=
  match ldRun target ldInit lines with
  | .error e => .error e
  | .ok st =>
    match st.mode with
    | LdMode.scanning => .ok (ldEmit target st)
    | _ => .error .stopIteration

/-- Processing a concatenation processes the parts in order. -/
theorem ldRun_append (target : Option (List Int)) (st : LdState) (a b : List Line) :
    ldRun target st (a ++ b) =
      match ldRun target st a with
      | .error e => .error e
      | .ok st' => ldRun target st' b := by
  induction a generalizing st with
  | nil => simp [ldRun]
  | cons l rest ih =>
    simp only [List.cons_append, ldRun]
    cases hl : ldLine target st l with
    | error e => simp
    | ok st1 => exact ih st1

end Voro

namespace Voro
/-- A line containing none of the four section-marker substrings: the scan
treats it as a (candidate) particle data line. -/
def ldMarkerFree (l : Line) : Bool :=
  !containsSub tsChars l && !containsSub numAtomsChars l &&
    !containsSub boxChars l && !containsSub atomsChars l

/-- The particle records accepted among a list of data lines: exactly the
lines whose try-block succeeds, in order. -/
def ldValid (ds : List Line) : List (Int × ℚ × ℚ × ℚ × ℚ) :=
  ds.filterMap ldAtomParse

/-- The scan state after a NUMBER OF ATOMS value n, an ATOMS marker and the
data lines ds: the accepted records are appended, reading is on, n is only
recorded; nothing else changes. -/
def ldSectionState (σ : LdState) (n : Int) (ds : List Line) : LdState :=
  { data := σ.data, cur_ts := σ.cur_ts,
    positions := σ.positions ++ (ldValid ds).map (fun r => (r.2.1, r.2.2.1, r.2.2.2.1)),
    types := σ.types ++ (ldValid ds).map (fun r => r.1),
    csp := σ.csp ++ (ldValid ds).map (fun r => r.2.2.2.2),
    bb := σ.bb, reading := true, expected := some n,
    atoms_read := σ.atoms_read + ((ldValid ds).length : Int), mode := LdMode.scanning }

/-- While reading atoms with a declared count still strictly larger than all
the records the section yields, the scan accepts the whole section: no line
raises, rejected lines are skipped silently, and the soft cutoff never turns
reading off. -/
theorem ldRun_data_section : ∀ (ds : List Line) (st : LdState) (n : Int),
    st.mode = LdMode.scanning → st.reading = true → st.expected = some n →
    (∀ l ∈ ds, ldMarkerFree l = true) →
    st.atoms_read + ((ldValid ds).length : Int) < n →
    ldRun none st ds = .ok
      { st with positions := st.positions ++ (ldValid ds).map (fun r => (r.2.1, r.2.2.1, r.2.2.2.1)),
                types := st.types ++ (ldValid ds).map (fun r => r.1),
                csp := st.csp ++ (ldValid ds).map (fun r => r.2.2.2.2),
                atoms_read := st.atoms_read + ((ldValid ds).length : Int) } := by
  intro ds
  induction ds with
  | nil =>
    intro st n hm hr he _ _
    simp [ldRun, ldValid]
  | cons d ds ih =>
    intro st n hm hr he hmf hcnt
    have hmfd := hmf d (by simp)
    simp only [ldMarkerFree, Bool.and_eq_true, Bool.not_eq_true'] at hmfd
    obtain ⟨⟨⟨h1, h2⟩, h3⟩, h4⟩ := hmfd
    cases hp : ldAtomParse d with
    | none =>
      have hv : ldValid (d :: ds) = ldValid ds := by
        simp [ldValid, List.filterMap_cons, hp]
      have hstep : ldLine none st d = .ok st := by
        simp only [ldLine, hm]
        rw [if_neg (by simp [h1]), if_neg (by simp [h2]), if_neg (by simp [h3]),
          if_neg (by simp [h4]), if_pos hr, hp]
      rw [hv] at hcnt ⊢
      simp only [ldRun, hstep]
      exact ih st n hm hr he (fun l hl => hmf l (by simp [hl])) hcnt
    | some r =>
      obtain ⟨ty, x, y, z, cv⟩ := r
      have hv : ldValid (d :: ds) = (ty, x, y, z, cv) :: ldValid ds := by
        simp [ldValid, List.filterMap_cons, hp]
      rw [hv] at hcnt
      simp only [List.length_cons] at hcnt
      have hcut : ¬ n ≤ st.atoms_read + 1 := by omega
      have hstep : ldLine none st d = .ok
          { st with positions := st.positions ++ [(x, y, z)],
                    types := st.types ++ [ty], csp := st.csp ++ [cv],
                    atoms_read := st.atoms_read + 1,
                    reading := match st.expected with
                               | some m => if m ≤ st.atoms_read + 1 then false else st.reading
                               | none => st.reading } := by
        simp only [ldLine, hm]
        rw [if_neg (by simp [h1]), if_neg (by simp [h2]), if_neg (by simp [h3]),
          if_neg (by simp [h4]), if_pos hr, hp]
      have hread : (match st.expected with
          | some m => if m ≤ st.atoms_read + 1 then false else st.reading
          | none => st.reading) = st.reading := by
        rw [he]
        show (if n ≤ st.atoms_read + 1 then false else st.reading) = st.reading
        rw [if_neg hcut]
      rw [hread] at hstep
      simp only [ldRun, hstep]
      rw [ih { st with positions := st.positions ++ [(x, y, z)],
                       types := st.types ++ [ty], csp := st.csp ++ [cv],
                       atoms_read := st.atoms_read + 1, reading := st.reading }
        n hm hr he (fun l hl => hmf l (by simp [hl]))
        (by change st.atoms_read + 1 + ((ldValid ds).length : Int) < n; omega)]
      rw [hv]
      simp only [List.map_cons, List.length_cons, Nat.cast_add, Nat.cast_one,
        List.append_assoc, List.singleton_append, Except.ok.injEq, LdState.mk.injEq,
        true_and, and_true]
      omega

/-- C5: the declared NUMBER OF ATOMS value is only a soft upper bound; a
declared count strictly larger than the records actually present raises no
error, and the atoms section ends at the next marker line or end of file.
Part one, read_lammps_dump: after any prefix leaving the scanner in its base
mode, a NUMBER OF ATOMS marker, any count line declaring n, any ATOMS marker
line and any marker-free data lines carrying fewer than n accepted records
scan without error into ldSectionState; at end of file that section is
emitted as the result, and a following TIMESTEP marker just closes the
section (emitting it into data) and carries on with the rest of the file.
Part two, read_dump_voro: the declared count is never even read - the
NUMBER OF ATOMS marker line and any non-marker count line of fewer than 4
numeric fields are skipped outright, the parse of the whole file being the
parse with the two lines removed. -/
theorem c5_count_soft_bound :
    (∀ (pre : List Line) (σ : LdState) (cl am : Line) (ds : List Line) (n : Int),
      ldRun none ldInit pre = .ok σ → σ.mode = LdMode.scanning →
      pyInt cl = some n →
      containsSub tsChars am = false → containsSub numAtomsChars am = false →
      containsSub boxChars am = false → containsSub atomsChars am = true →
      (∀ l ∈ ds, ldMarkerFree l = true) →
      σ.atoms_read + ((ldValid ds).length : Int) < n →
      ldRun none ldInit (pre ++ (("ITEM: NUMBER OF ATOMS").data) :: cl :: am :: ds) =
          .ok (ldSectionState σ n ds)
        ∧ read_lammps_dump (pre ++ (("ITEM: NUMBER OF ATOMS").data) :: cl :: am :: ds) none =
          .ok (ldEmit none (ldSectionState σ n ds))
        ∧ ∀ rest, ldRun none ldInit
            ((pre ++ (("ITEM: NUMBER OF ATOMS").data) :: cl :: am :: ds) ++
              (("ITEM: TIMESTEP").data) :: rest) =
          ldRun none { ldSectionState σ n ds with
                       data := ldEmit none (ldSectionState σ n ds),
                       mode := LdMode.expectTs } rest)
    ∧ (∀ (pre : List Line) (σ : RdState) (cl : Line) (post : List Line),
      rdRun rdInit pre = .ok σ → σ.mode = RdMode.scanning →
      hasPfx itemChars (trim cl) = false →
      (pyFloats (trim cl) = none ∨ ∃ vs, pyFloats (trim cl) = some vs ∧ vs.length < 4) →
      read_dump_voro (pre ++ (("ITEM: NUMBER OF ATOMS").data) :: cl :: post) =
        read_dump_voro (pre ++ post)) := by
  constructor
  · intro pre σ cl am ds n hσ hm hcl ha1 ha2 ha3 ha4 hmf hcnt
    have e1 : ldLine none σ (("ITEM: NUMBER OF ATOMS").data) =
        .ok { σ with mode := LdMode.expectCount } := by
      simp only [ldLine, hm]
      rw [if_neg (by decide), if_pos (by decide)]
    have e2 : ldLine none { σ with mode := LdMode.expectCount } cl =
        .ok { σ with expected := some n, mode := LdMode.scanning } := by
      simp only [ldLine]
      rw [hcl]
    have e3 : ldLine none { σ with expected := some n, mode := LdMode.scanning } am =
        .ok { σ with expected := some n, reading := true, mode := LdMode.scanning } := by
      simp only [ldLine]
      rw [if_neg (by simp [ha1]), if_neg (by simp [ha2]), if_neg (by simp [ha3]), if_pos ha4]
    have e4 : ldRun none { σ with expected := some n, reading := true, mode := LdMode.scanning } ds =
        .ok (ldSectionState σ n ds) :=
      ldRun_data_section ds _ n rfl rfl rfl hmf hcnt
    have hrun : ldRun none ldInit (pre ++ (("ITEM: NUMBER OF ATOMS").data) :: cl :: am :: ds) =
        .ok (ldSectionState σ n ds) := by
      rw [ldRun_append, hσ]
      simp only [ldRun, e1, e2, e3]
      exact e4
    refine ⟨hrun, ?_, ?_⟩
    · unfold read_lammps_dump
      rw [hrun]
      rfl
    · intro rest
      have e5 : ldLine none (ldSectionState σ n ds) (("ITEM: TIMESTEP").data) =
          .ok { ldSectionState σ n ds with
                data := ldEmit none (ldSectionState σ n ds), mode := LdMode.expectTs } := by
        simp only [ldLine, show (ldSectionState σ n ds).mode = LdMode.scanning from rfl]
        rw [if_pos (by decide)]
      rw [ldRun_append, hrun]
      simp only [ldRun, e5]
  · intro pre σ cl post hσ hm hnm hbad
    have e1 : rdLine σ (("ITEM: NUMBER OF ATOMS").data) = .ok σ := by
      simp only [rdLine, hm]
      rw [if_neg (by decide), if_neg (by decide), if_pos (by decide), if_neg (by decide)]
    have e2 : rdLine σ cl = .ok σ := rdLine_skip σ cl hm hnm hbad
    have h1 : rdRun rdInit (pre ++ (("ITEM: NUMBER OF ATOMS").data) :: cl :: post) =
        rdRun σ post := by
      rw [rdRun_append, hσ]
      simp only [rdRun, e1, e2]
    have h2 : rdRun rdInit (pre ++ post) = rdRun σ post := by
      rw [rdRun_append, hσ]
    unfold read_dump_voro
    rw [h1, h2]

def c5wPre : List Line := mkLines ["ITEM: TIMESTEP", "0"]

def c5wState : LdState :=
  { data := [], cur_ts := some 0, positions := [], types := [], csp := [], bb := none,
    reading := false, expected := none, atoms_read := 0, mode := LdMode.scanning }

def c5wAm : Line := ("ITEM: ATOMS id type x y z c c c c c c").data

def c5wDs : List Line := mkLines ["1 1 1.0 2.0 3.0 0 0 0 0 0 0.5", "bad line"]

def c5wPreB : List Line := mkLines ["ITEM: TIMESTEP", "3"]

def c5wStateB : RdState :=
  { acc := [], cur_ts := some 3, cur_data := [], bb := none, ids := [],
    colIdx := none, mode := RdMode.scanning }

def c5wPost : List Line := mkLines ["ITEM: ATOMS", "h", "4 1 1.0 2.0 3.0"]

/-- Witness for C5: a section declaring 5 atoms over one valid and one
rejected data line parses to exactly the one record present, and
read_dump_voro on a file with the count pair inserted equals it on the file
with the pair removed. -/
theorem c5_count_soft_bound_witness :
    (read_lammps_dump (c5wPre ++ (("ITEM: NUMBER OF ATOMS").data) :: (("5").data) :: c5wAm :: c5wDs)
        none = .ok (ldEmit none (ldSectionState c5wState 5 c5wDs)))
      ∧ read_dump_voro (c5wPreB ++ (("ITEM: NUMBER OF ATOMS").data) :: (("400").data) :: c5wPost) =
        read_dump_voro (c5wPreB ++ c5wPost) :=
  ⟨(c5_count_soft_bound.1 c5wPre c5wState (("5").data) c5wAm c5wDs 5 (by decide) rfl
      (by decide) (by decide) (by decide) (by decide) (by decide) (by decide) (by decide)).2.1,
   c5_count_soft_bound.2 c5wPreB c5wStateB (("400").data) c5wPost (by decide) rfl
      (by decide) (Or.inr ⟨[400], by decide, by decide⟩)⟩

end Voro

namespace Voro

/- ----------------------------------------------------------------------
scripts/extract_stress_strain_data.py (loading_direction = the default 'z')
---------------------------------------------------------------------- -/

def stepChars : Line := ("Step").data

/-- required_keys for loading direction z: Step, Pzz, Lx, Ly, Lz. -/
def requiredKeys : List Line :=
  [("Step").data, ("Pzz").data, ("Lx").data, ("Ly").data, ("Lz").data]

/-- Loop state of extract_stress_strain_data: collected rows, whether the
header was found, the tokens of the last Step-starting line, the resolved
indices of Step/Pzz/Lx/Ly/Lz, and the initial box lengths from the step-0
row. -/
structure ExState where
  rows : List (Int × ℚ × ℚ)
  found : Bool
  hdr : List Line
  idx : Nat × Nat × Nat × Nat × Nat
  initial : Option (ℚ × ℚ × ℚ)
deriving DecidableEq, Repr

def exInit : ExState := ⟨[], false, [], (0, 0, 0, 0, 0), none⟩

/-- A line that makes header_line_found become true: it starts (after
strip) with "Step" and its tokens contain all required keys. -/
def headerMatch (l : Line) : Bool :=
  hasPfx stepChars (trim l) && requiredKeys.all (fun k => (splitWs (trim l)).contains k)

/-- Processing of one log line.  An `.error` is an exception that only the
whole-function `except Exception` catches (TypeError from arithmetic on the
None initial lengths, or ZeroDivisionError), making the function return
None. A ValueError on a data token is caught by the inner handler and the
line is skipped. -/
def exLine (st : ExState) (l : Line) : Except Unit ExState :=
  let t := trim l
  if !st.found && hasPfx stepChars t then
    let hdr := splitWs t
    if requiredKeys.all (fun k => hdr.contains k) then
      .ok { st with hdr := hdr, found := true,
                    idx := ((idxFind (("Step").data) hdr).getD 0,
                            (idxFind (("Pzz").data) hdr).getD 0,
                            (idxFind (("Lx").data) hdr).getD 0,
                            (idxFind (("Ly").data) hdr).getD 0,
                            (idxFind (("Lz").data) hdr).getD 0) }
    else .ok { st with hdr := hdr }
  else if st.found && ((splitWs t).length == st.hdr.length) then
    let values := splitWs t
    match pyInt (values.getD st.idx.1 []), pyFloat (values.getD st.idx.2.1 []),
        pyFloat (values.getD st.idx.2.2.1 []), pyFloat (values.getD st.idx.2.2.2.1 []),
        pyFloat (values.getD st.idx.2.2.2.2 []) with
    | some step, some stress, some lx, some ly, some lz =>
      if step = 0 then
        .ok { st with initial := some (lx, ly, lz), rows := st.rows ++ [(step, 0, -stress)] }
      else
        match st.initial with
        | none => .error ()
        | some ini =>
          if ini.2.2 = 0 then .error ()
          else .ok { st with rows := st.rows ++ [(step, (lz - ini.2.2) / ini.2.2, -stress)] }
    | _, _, _, _, _ => .ok st
  else .ok st

def exRun : ExState → List Line → Except Unit ExState
  | st, [] => .ok st
  | st, l :: rest =>
    match exLine st l with
    | .error e => .error e
    | .ok st' => exRun st' rest

/-- extract_stress_strain_data on the log's lines: None when an uncaught
exception reached the outer handler or when the header line was never found
(both paths print a message and return None); otherwise the collected
(timestep, strain, -stress) rows. -/
def extract_stress_strain_data (log : List Line) : Option (List (Int × ℚ × ℚ)) :=
  match exRun exInit log with
  | .error _ => none
  | .ok st => if st.found then some st.rows else none

/-- The process exit status of the script's __main__ block: it prints
"Failed to extract stress-strain data." when extraction returns None (and
"No data to write." when the list is empty) but contains no sys.exit call,
so every path ends with status 0. -/
def scriptExit (log : List Line) : Nat :=
  match extract_stress_strain_data log with
  | none => 0
  | some [] => 0
  | some (_ :: _) => 0

end Voro

example :
    Voro.extract_stress_strain_data (Voro.mkLines ["LAMMPS log", "units metal"]) = none := by
  decide
example :
    Voro.extract_stress_strain_data (Voro.mkLines ["Step Pzz Lx Ly Lz"]) = some [] := by
  decide
example : Voro.headerMatch (("   Step Pxx Pzz Lx Ly Lz Temp").data) = true := by decide
example : Voro.headerMatch (("Step Pxx Lx Ly Lz").data) = false := by decide

namespace Voro

/-- C9 counterexample: on a log with no thermo header line,
extract_stress_strain_data returns None (after printing its error message),
but the script's exit status is 0, not non-zero — the __main__ block prints
"Failed to extract stress-strain data." and falls off the end without
sys.exit. -/
theorem c9_exit_zero_on_missing_header :
    extract_stress_strain_data
        (mkLines ["LAMMPS (2 Aug 2023)", "units metal", "run 1000"]) = none
    ∧ scriptExit (mkLines ["LAMMPS (2 Aug 2023)", "units metal", "run 1000"]) = 0 :=
  ⟨by decide, rfl⟩

/-- The scan never sets header_line_found when no line is a matching header,
and never raises (the raising paths all require the header to be found). -/
theorem exRun_no_header (log : List Line) :
    ∀ st : ExState, st.found = false → (∀ l ∈ log, headerMatch l = false) →
      ∃ st', exRun st log = .ok st' ∧ st'.found = false := by
  induction log with
  | nil => intro st hf _; exact ⟨st, rfl, hf⟩
  | cons l rest ih =>
    intro st hf hall
    have hm := hall l (by simp)
    cases hpf : hasPfx stepChars (trim l) with
    | true =>
      have hkeys : requiredKeys.all (fun k => (splitWs (trim l)).contains k) = false := by
        unfold headerMatch at hm
        rw [hpf] at hm
        simpa using hm
      have hstep : exLine st l = .ok { st with hdr := splitWs (trim l) } := by
        unfold exLine
        rw [if_pos (by simp [hf, hpf])]
        rw [if_neg (by rw [hkeys]; simp)]
      obtain ⟨st', hrun, hf'⟩ := ih { st with hdr := splitWs (trim l) } hf
        (fun x hx => hall x (by simp [hx]))
      exact ⟨st', by simp only [exRun, hstep, hrun], hf'⟩
    | false =>
      have hstep : exLine st l = .ok st := by
        unfold exLine
        rw [if_neg (by simp [hf, hpf])]
        rw [if_neg (by simp [hf])]
      obtain ⟨st', hrun, hf'⟩ := ih st hf (fun x hx => hall x (by simp [hx]))
      exact ⟨st', by simp only [exRun, hstep, hrun], hf'⟩

/-- C9 (amended): if no line of the log is a thermo header naming Step, the
loading-direction stress Pzz and Lx, Ly, Lz, then
extract_stress_strain_data surfaces the condition as None — with its
descriptive message and no partial rows — and the calling script reports
the failure and writes nothing, but its exit status is 0 (the claim's
non-zero exit status does not happen: there is no sys.exit in the script). -/
theorem c9_missing_header_terminal (log : List Line)
    (h : ∀ l ∈ log, headerMatch l = false) :
    extract_stress_strain_data log = none ∧ scriptExit log = 0 := by
  obtain ⟨st', hrun, hf'⟩ := exRun_no_header log exInit rfl h
  have he : extract_stress_strain_data log = none := by
    unfold extract_stress_strain_data
    simp only [hrun]
    rw [hf']
    simp
  refine ⟨he, ?_⟩
  unfold scriptExit
  rw [he]

/-- Witness for C9 (amended) on a concrete headerless log. -/
theorem c9_missing_header_terminal_witness :
    extract_stress_strain_data (mkLines ["units metal", "fix 1 all npt", "Step done"]) = none
    ∧ scriptExit (mkLines ["units metal", "fix 1 all npt", "Step done"]) = 0 :=
  c9_missing_header_terminal (mkLines ["units metal", "fix 1 all npt", "Step done"])
    (by decide)

end Voro
